import Mathlib

/-!
Shallow embedding of the BOF argument packer of the `csbot` repository
(`src/unnamed/part_000`, package `workflow`), together with proofs of the
specified properties of `PackBOFArguments` and its helpers.

Bytes are modelled as `Nat` values (always `< 256` when produced by the
embedded code); byte buffers as `List Nat`.  Go's dynamically typed
`interface{}` argument values become the closed inductive `GoValue`;
fallible Go functions returning `([]byte, error)` become
`Except PackError (List Nat)` (on error the Go code returns a `nil`
buffer, so the error case carries no bytes).
-/

namespace CSBot

/-- Big-endian 4-byte encoding, as `binary.BigEndian.PutUint32` on a
`uint32` value: only the low 32 bits of `n` are represented. -/
def be32 (n : Nat) : List Nat :=
  [n / 2 ^ 24 % 256, n / 2 ^ 16 % 256, n / 2 ^ 8 % 256, n % 256]

/-- Big-endian 2-byte encoding, as `binary.BigEndian.PutUint16` on a
`uint16` value: only the low 16 bits of `n` are represented. -/
def be16 (n : Nat) : List Nat :=
  [n / 2 ^ 8 % 256, n % 256]

/-- Little-endian 2-byte encoding, as `binary.LittleEndian.PutUint16`. -/
def le16 (n : Nat) : List Nat :=
  [n % 256, n / 2 ^ 8 % 256]

/-- UTF-8 encoding of one Unicode scalar value, as Go produces for each
rune of a string converted with `[]byte(str)`. -/
def utf8EncodeChar (c : Char) : List Nat :=
  let v := c.toNat
  if v < 0x80 then [v]
  else if v < 0x800 then
    [0xC0 + v / 0x40, 0x80 + v % 0x40]
  else if v < 0x10000 then
    [0xE0 + v / 0x1000, 0x80 + v / 0x40 % 0x40, 0x80 + v % 0x40]
  else
    [0xF0 + v / 0x40000, 0x80 + v / 0x1000 % 0x40, 0x80 + v / 0x40 % 0x40,
      0x80 + v % 0x40]

/-- The bytes of Go's `[]byte(str)` for a (valid-UTF-8) string. -/
def utf8Bytes (s : String) : List Nat :=
  (s.data.map utf8EncodeChar).flatten

/-- UTF-16 code units of one Unicode scalar value, as `utf16.Encode`
produces for each rune (Lean `Char` excludes surrogates, so the
replacement-character branch of `utf16.Encode` is unreachable). -/
def utf16EncodeChar (c : Char) : List Nat :=
  let v := c.toNat
  if v < 0x10000 then [v]
  else
    [0xD800 + (v - 0x10000) / 0x400, 0xDC00 + (v - 0x10000) % 0x400]

/-- The UTF-16 code-unit sequence of a string, as `utf16.Encode ([]rune(str))`. -/
def utf16Units (s : String) : List Nat :=
  (s.data.map utf16EncodeChar).flatten

/-- Value of one hexadecimal digit, as `encoding/hex.fromHexChar`:
accepts `0-9`, `a-f`, `A-F`. -/
def fromHexDigit (c : Char) : Option Nat :=
  if '0' ≤ c ∧ c ≤ '9' then some (c.toNat - 48)
  else if 'a' ≤ c ∧ c ≤ 'f' then some (c.toNat - 87)
  else if 'A' ≤ c ∧ c ≤ 'F' then some (c.toNat - 55)
  else none

/-- Pairwise hex decoding of a character list, as `encoding/hex.Decode`:
fails on an invalid digit or an odd-length input (`PackBOFArguments`
discards any partially decoded bytes when `hex.DecodeString` errors,
so a plain `Option` suffices). -/
def hexDecodeChars : List Char → Option (List Nat)
  | [] => some []
  | [_] => none
  | c1 :: c2 :: rest =>
    match fromHexDigit c1, fromHexDigit c2, hexDecodeChars rest with
    | some hi, some lo, some bs => some ((16 * hi + lo) :: bs)
    | _, _, _ => none

/-- `encoding/hex.DecodeString`. -/
def hexDecode (s : String) : Option (List Nat) :=
  hexDecodeChars s.data

/-- Lowercase hex digit for a nibble, as `encoding/hex`'s digit table
`0123456789abcdef`. -/
def toHexDigit (n : Nat) : Char :=
  if n < 10 then Char.ofNat (48 + n) else Char.ofNat (87 + n)

/-- Two lowercase hex digits of one byte, as `encoding/hex.Encode`
writes `v >> 4` then `v & 0x0f`. -/
def hexEncodeByte (b : Nat) : List Char :=
  [toHexDigit (b / 16 % 16), toHexDigit (b % 16)]

/-- `encoding/hex.EncodeToString`. -/
def hexEncode (b : List Nat) : String :=
  ⟨(b.map hexEncodeByte).flatten⟩

/-- Decimal accumulation of `strconv.ParseUint(s, 10, _)`: folds digits
left to right, failing on any non-digit character. -/
def decValueAux (acc : Nat) : List Char → Option Nat
  | [] => some acc
  | c :: rest =>
    if '0' ≤ c ∧ c ≤ '9' then decValueAux (acc * 10 + (c.toNat - 48)) rest
    else none

/-- `strconv.ParseUint(s, 10, bits)`: empty input, a non-digit character
(including any sign), and a value not fitting in `bits` bits all yield an
error (`ParseUint` reports `ErrRange` for out-of-range values rather than
wrapping). -/
def parseUintDec (s : String) (bits : Nat) : Option Nat :=
  if s.data.isEmpty then none
  else
    match decValueAux 0 s.data with
    | some v => if v < 2 ^ bits then some v else none
    | none => none

/-- The closed set of dynamic (`interface{}`) value shapes the packer's
type switches distinguish.  `float64` carries the integer obtained by
Go's truncation toward zero in the numeric conversion (the fractional
part is already discarded); `other` stands for any dynamic type not
handled by any `case`, carrying its `%T` name. -/
inductive GoValue where
  | str (s : String)
  | bytes (b : List Nat)
  | int (n : Int)
  | int32 (n : Int)
  | uint32 (n : Nat)
  | int16 (n : Int)
  | uint16 (n : Nat)
  | float64 (n : Int)
  | other (tyName : String)
deriving DecidableEq

/-- The `%T` type name of a value, used in the mismatch error messages. -/
def GoValue.typeName : GoValue → String
  | .str _ => "string"
  | .bytes _ => "[]uint8"
  | .int _ => "int"
  | .int32 _ => "int32"
  | .uint32 _ => "uint32"
  | .int16 _ => "int16"
  | .uint16 _ => "uint16"
  | .float64 _ => "float64"
  | .other tyName => tyName

/-- `BOFArgument`: a type tag and a dynamically typed value. -/
structure BOFArgument where
  «Type» : String
  Value : GoValue
deriving DecidableEq

/-- The distinct error shapes of the packer.  `unsupportedType` is the
`default:` branch of `PackBOFArguments`' type switch; the others come
out of the per-type pack helpers (`invalid type for %s: %T`, a
`hex.DecodeString` error, a `strconv.ParseUint` error). -/
inductive PackError where
  | unsupportedType (ty : String)
  | invalidValueType (forType : String) (valueType : String)
  | hexDecodeError
  | parseUintError
deriving DecidableEq

/-- An error arising from a value that cannot be coerced to its declared
type (the spec's `TypeMismatch` kind): every packer error other than the
unknown-tag `UnsupportedType`. -/
def PackError.isTypeMismatch : PackError → Bool
  | .unsupportedType _ => false
  | _ => true

/-- `packBinaryWithPrefix`: a string value is taken as hex text, a byte
slice is hex-encoded first (`hex.EncodeToString`), anything else is a
type error; the decoded bytes are emitted behind a 4-byte big-endian
length, no terminator. -/
def packBinaryWithPrefix (value : GoValue) : Except PackError (List Nat) :=
  match (match value with
      | .str s => Except.ok s
      | .bytes b => Except.ok (hexEncode b)
      | v => Except.error (PackError.invalidValueType "binary" v.typeName)
      : Except PackError String) with
  | .error e => .error e
  | .ok hexString =>
    match hexDecode hexString with
    | some hexData => .ok (be32 hexData.length ++ hexData)
    | none => .error .hexDecodeError

/-- `packInt`: coerces `int`, `int32`, `uint32`, `float64` (all by Go's
`uint32(val)` conversion, i.e. truncation to the low 32 bits) or a
decimal string via `strconv.ParseUint(val, 10, 32)`; emits 4 bytes
big-endian, no length prefix. -/
def packInt (value : GoValue) : Except PackError (List Nat) :=
  match value with
  | .int n => .ok (be32 (n % 2 ^ 32).toNat)
  | .int32 n => .ok (be32 (n % 2 ^ 32).toNat)
  | .uint32 n => .ok (be32 (n % 2 ^ 32))
  | .float64 n => .ok (be32 (n % 2 ^ 32).toNat)
  | .str s =>
    match parseUintDec s 32 with
    | some parsed => .ok (be32 parsed)
    | none => .error .parseUintError
  | v => .error (.invalidValueType "int" v.typeName)

/-- `packShort`: coerces `int`, `int16`, `uint16`, `float64` (all by
Go's `uint16(val)` conversion, i.e. truncation to the low 16 bits) or a
decimal string via `strconv.ParseUint(val, 10, 16)`; emits 2 bytes
big-endian, no length prefix. -/
def packShort (value : GoValue) : Except PackError (List Nat) :=
  match value with
  | .int n => .ok (be16 (n % 2 ^ 16).toNat)
  | .int16 n => .ok (be16 (n % 2 ^ 16).toNat)
  | .uint16 n => .ok (be16 (n % 2 ^ 16))
  | .float64 n => .ok (be16 (n % 2 ^ 16).toNat)
  | .str s =>
    match parseUintDec s 16 with
    | some parsed => .ok (be16 parsed)
    | none => .error .parseUintError
  | v => .error (.invalidValueType "short" v.typeName)

/-- `packStringWithPrefix`: the value must be a string; its UTF-8 bytes
plus a 1-byte null terminator are emitted behind a 4-byte big-endian
length that counts the terminator. -/
def packStringWithPrefix (value : GoValue) : Except PackError (List Nat) :=
  match value with
  | .str s =>
    let strData := utf8Bytes s ++ [0]
    .ok (be32 strData.length ++ strData)
  | v => .error (.invalidValueType "string" v.typeName)

/-- `packWideStringWithPrefix`: the value must be a string; its UTF-16
code units are emitted little-endian, followed by a 2-byte null
terminator, behind a 4-byte big-endian byte length that counts the
terminator. -/
def packWideStringWithPrefix (value : GoValue) : Except PackError (List Nat) :=
  match value with
  | .str s =>
    let wstrData := ((utf16Units s).map le16).flatten ++ [0, 0]
    .ok (be32 wstrData.length ++ wstrData)
  | v => .error (.invalidValueType "wstring" v.typeName)

/-- One iteration of `PackBOFArguments`' loop body: the type switch
dispatching on the tag, with the `default:` branch producing the
unsupported-type error. -/
def packOneBOFArgument (arg : BOFArgument) : Except PackError (List Nat) :=
  if arg.«Type» = "binary" ∨ arg.«Type» = "b" then packBinaryWithPrefix arg.Value
  else if arg.«Type» = "int" ∨ arg.«Type» = "i" then packInt arg.Value
  else if arg.«Type» = "short" ∨ arg.«Type» = "s" then packShort arg.Value
  else if arg.«Type» = "string" ∨ arg.«Type» = "z" then packStringWithPrefix arg.Value
  else if arg.«Type» = "wstring" ∨ arg.«Type» = "Z" then packWideStringWithPrefix arg.Value
  else .error (.unsupportedType arg.«Type»)

/-- The type tags `PackBOFArguments`' switch recognizes (every non-default
`case` label). -/
def recognizedTag (ty : String) : Bool :=
  decide (ty = "binary" ∨ ty = "b" ∨ ty = "int" ∨ ty = "i" ∨ ty = "short" ∨ ty = "s" ∨
    ty = "string" ∨ ty = "z" ∨ ty = "wstring" ∨ ty = "Z")

/-- `PackBOFArguments`: an empty list yields `(nil, nil)`; otherwise each
argument is packed in order and appended to the buffer, and the first
failing argument aborts the whole call with `(nil, err)` — no partial
buffer survives an error. -/
def PackBOFArguments : List BOFArgument → Except PackError (List Nat)
  | [] => .ok []
  | arg :: rest =>
    match packOneBOFArgument arg with
    | .error e => .error e
    | .ok data =>
      match PackBOFArguments rest with
      | .error e => .error e
      | .ok buff => .ok (data ++ buff)

/-! ### Structure lemmas about the packing loop -/

theorem packBOF_cons_err (a : BOFArgument) (l : List BOFArgument) (e : PackError)
    (h : packOneBOFArgument a = .error e) :
    PackBOFArguments (a :: l) = .error e := by
  simp [PackBOFArguments, h]

theorem packBOF_cons_ok_iff (a : BOFArgument) (l : List BOFArgument) (buf : List Nat) :
    PackBOFArguments (a :: l) = .ok buf ↔
      ∃ d r, packOneBOFArgument a = .ok d ∧ PackBOFArguments l = .ok r ∧ buf = d ++ r := by
  cases h1 : packOneBOFArgument a with
  | error e => simp [PackBOFArguments, h1]
  | ok d =>
    cases h2 : PackBOFArguments l with
    | error e => simp [PackBOFArguments, h1, h2]
    | ok r => simp [PackBOFArguments, h1, h2, eq_comm]

theorem packBOF_singleton (a : BOFArgument) :
    PackBOFArguments [a] = packOneBOFArgument a := by
  cases h : packOneBOFArgument a <;> simp [PackBOFArguments, h]

theorem packBOF_ok_mem {args : List BOFArgument} {buf : List Nat}
    (h : PackBOFArguments args = .ok buf) :
    ∀ a ∈ args, ∃ d, packOneBOFArgument a = .ok d := by
  induction args generalizing buf with
  | nil => simp
  | cons x l ih =>
    rw [packBOF_cons_ok_iff] at h
    obtain ⟨d, r, hx, hl, -⟩ := h
    intro a ha
    rcases List.mem_cons.mp ha with rfl | ha
    · exact ⟨d, hx⟩
    · exact ih hl a ha

theorem packBOF_all_ok {args : List BOFArgument}
    (h : ∀ a ∈ args, ∃ d, packOneBOFArgument a = .ok d) :
    ∃ buf, PackBOFArguments args = .ok buf := by
  induction args with
  | nil => exact ⟨[], rfl⟩
  | cons x l ih =>
    obtain ⟨d, hd⟩ := h x (List.mem_cons_self x l)
    obtain ⟨r, hr⟩ := ih fun a ha => h a (List.mem_cons_of_mem _ ha)
    exact ⟨d ++ r, (packBOF_cons_ok_iff ..).mpr ⟨d, r, hd, hr, rfl⟩⟩

theorem packBOF_append_error {pre rest : List BOFArgument} {buf : List Nat} {e : PackError}
    (h1 : PackBOFArguments pre = .ok buf) (h2 : PackBOFArguments rest = .error e) :
    PackBOFArguments (pre ++ rest) = .error e := by
  induction pre generalizing buf with
  | nil => simpa using h2
  | cons x l ih =>
    rw [packBOF_cons_ok_iff] at h1
    obtain ⟨d, r, hx, hl, rfl⟩ := h1
    rw [List.cons_append]
    simp [PackBOFArguments, hx, ih hl]

/-! ### Classification of helper errors -/

theorem packBinary_error_isTypeMismatch {v : GoValue} {e : PackError}
    (h : packBinaryWithPrefix v = .error e) : e.isTypeMismatch = true := by
  cases v <;> simp only [packBinaryWithPrefix] at h <;> (try split at h) <;>
    first
      | exact Except.noConfusion h
      | (injection h with h; subst h; rfl)

theorem packInt_error_isTypeMismatch {v : GoValue} {e : PackError}
    (h : packInt v = .error e) : e.isTypeMismatch = true := by
  cases v <;> simp only [packInt] at h <;> (try split at h) <;>
    first
      | exact Except.noConfusion h
      | (injection h with h; subst h; rfl)

theorem packShort_error_isTypeMismatch {v : GoValue} {e : PackError}
    (h : packShort v = .error e) : e.isTypeMismatch = true := by
  cases v <;> simp only [packShort] at h <;> (try split at h) <;>
    first
      | exact Except.noConfusion h
      | (injection h with h; subst h; rfl)

theorem packString_error_isTypeMismatch {v : GoValue} {e : PackError}
    (h : packStringWithPrefix v = .error e) : e.isTypeMismatch = true := by
  cases v <;> simp only [packStringWithPrefix] at h <;>
    first
      | exact Except.noConfusion h
      | (injection h with h; subst h; rfl)

theorem packWideString_error_isTypeMismatch {v : GoValue} {e : PackError}
    (h : packWideStringWithPrefix v = .error e) : e.isTypeMismatch = true := by
  cases v <;> simp only [packWideStringWithPrefix] at h <;>
    first
      | exact Except.noConfusion h
      | (injection h with h; subst h; rfl)

theorem packOne_recognized_error {arg : BOFArgument} {e : PackError}
    (hrec : recognizedTag arg.«Type» = true)
    (h : packOneBOFArgument arg = .error e) : e.isTypeMismatch = true := by
  unfold packOneBOFArgument at h
  split at h
  · exact packBinary_error_isTypeMismatch h
  split at h
  · exact packInt_error_isTypeMismatch h
  split at h
  · exact packShort_error_isTypeMismatch h
  split at h
  · exact packString_error_isTypeMismatch h
  split at h
  · exact packWideString_error_isTypeMismatch h
  · simp only [recognizedTag, decide_eq_true_eq] at hrec
    tauto

theorem packOne_unrecognized {arg : BOFArgument}
    (hrec : recognizedTag arg.«Type» = false) :
    packOneBOFArgument arg = .error (.unsupportedType arg.«Type») := by
  simp only [recognizedTag, decide_eq_false_iff_not, not_or] at hrec
  obtain ⟨h1, h2, h3, h4, h5, h6, h7, h8, h9, h10⟩ := hrec
  simp [packOneBOFArgument, h1, h2, h3, h4, h5, h6, h7, h8, h9, h10]

/-! ### Length and hex round-trip lemmas -/

theorem flatten_map_le16_length (l : List Nat) :
    ((l.map le16).flatten).length = 2 * l.length := by
  induction l with
  | nil => rfl
  | cons x l ih =>
    simp only [List.map_cons, List.flatten_cons, List.length_append, ih, le16]
    simp
    omega

theorem fromHexDigit_toHexDigit : ∀ n < 16, fromHexDigit (toHexDigit n) = some n := by
  decide

theorem hexDecodeChars_encode {b : List Nat} (h : ∀ x ∈ b, x < 256) :
    hexDecodeChars ((b.map hexEncodeByte).flatten) = some b := by
  induction b with
  | nil => rfl
  | cons x l ih =>
    have hx : x < 256 := h x (List.mem_cons_self x l)
    have ihl := ih fun y hy => h y (List.mem_cons_of_mem _ hy)
    have hhi : x / 16 % 16 < 16 := Nat.mod_lt _ (by norm_num)
    have hlo : x % 16 < 16 := Nat.mod_lt _ (by norm_num)
    have hshape : (List.map hexEncodeByte (x :: l)).flatten =
        toHexDigit (x / 16 % 16) :: toHexDigit (x % 16) ::
          (List.map hexEncodeByte l).flatten := by
      simp [hexEncodeByte]
    rw [hshape]
    simp only [hexDecodeChars, fromHexDigit_toHexDigit _ hhi,
      fromHexDigit_toHexDigit _ hlo, ihl]
    have hx16 : 16 * (x / 16 % 16) + x % 16 = x := by omega
    rw [hx16]

/-! ### The claims -/

/-- C1: packing `[narrow string "C:\Windows", short 0]` yields exactly the
bytes `00 00 00 0B`, the ASCII bytes of `C:\Windows`, a `00` terminator,
then `00 00`; and packing `[wide string "C:\Windows", int 12112]` yields
exactly `00 00 00 16`, the UTF-16LE bytes of `C:\Windows`, a two-byte
`00 00` terminator, then `00 00 2F 50`. -/
theorem C1_test_vectors :
    PackBOFArguments [⟨"string", .str "C:\\Windows"⟩, ⟨"short", .int 0⟩] =
      .ok [0x00, 0x00, 0x00, 0x0B,
        0x43, 0x3A, 0x5C, 0x57, 0x69, 0x6E, 0x64, 0x6F, 0x77, 0x73, 0x00,
        0x00, 0x00] ∧
    PackBOFArguments [⟨"wstring", .str "C:\\Windows"⟩, ⟨"int", .int 12112⟩] =
      .ok [0x00, 0x00, 0x00, 0x16,
        0x43, 0x00, 0x3A, 0x00, 0x5C, 0x00, 0x57, 0x00, 0x69, 0x00,
        0x6E, 0x00, 0x64, 0x00, 0x6F, 0x00, 0x77, 0x00, 0x73, 0x00,
        0x00, 0x00,
        0x00, 0x00, 0x2F, 0x50] :=
  ⟨rfl, rfl⟩

/-- C2: when packing succeeds the output buffer is the concatenation of
each argument's own encoding in declaration order; in particular
`pack [a, b] = pack [a] ++ pack [b]` whenever `pack [a, b]` succeeds. -/
theorem C2_concatenation :
    (∀ (a b : BOFArgument) (buf : List Nat),
        PackBOFArguments [a, b] = .ok buf →
        ∃ da db, PackBOFArguments [a] = .ok da ∧ PackBOFArguments [b] = .ok db ∧
          buf = da ++ db) ∧
    (∀ (args : List BOFArgument) (buf : List Nat),
        PackBOFArguments args = .ok buf →
        ∃ ds : List (List Nat),
          List.Forall₂ (fun a d => PackBOFArguments [a] = .ok d) args ds ∧
          buf = ds.flatten) := by
  have general : ∀ (args : List BOFArgument) (buf : List Nat),
      PackBOFArguments args = .ok buf →
      ∃ ds : List (List Nat),
        List.Forall₂ (fun a d => PackBOFArguments [a] = .ok d) args ds ∧
        buf = ds.flatten := by
    intro args
    induction args with
    | nil =>
      intro buf h
      refine ⟨[], List.Forall₂.nil, ?_⟩
      obtain rfl : buf = [] := by simpa [PackBOFArguments, eq_comm] using h
      rfl
    | cons x l ih =>
      intro buf h
      rw [packBOF_cons_ok_iff] at h
      obtain ⟨d, r, hx, hl, rfl⟩ := h
      obtain ⟨ds, hall, rfl⟩ := ih r hl
      refine ⟨d :: ds, List.Forall₂.cons ?_ hall, by simp⟩
      rw [packBOF_singleton, hx]
  refine ⟨?_, general⟩
  intro a b buf h
  rw [packBOF_cons_ok_iff] at h
  obtain ⟨d, r, ha, hb, rfl⟩ := h
  exact ⟨d, r, by rw [packBOF_singleton, ha], hb, rfl⟩

/-- C2 witness: the concatenation law applied to the concrete argument
list `[int 1, short 2]`. -/
theorem C2_concatenation_witness :
    ∃ da db, PackBOFArguments [⟨"int", .int 1⟩] = .ok da ∧
      PackBOFArguments [⟨"short", .int 2⟩] = .ok db ∧
      [0, 0, 0, 1, 0, 2] = da ++ db :=
  C2_concatenation.1 ⟨"int", .int 1⟩ ⟨"short", .int 2⟩ [0, 0, 0, 1, 0, 2] rfl

/-- C3: a wstring argument with string value `s` encodes as a 4-byte
big-endian length whose value is `2 * (number of UTF-16 code units of s
+ 1)` (the payload byte count including the terminator), then the
UTF-16LE code units of `s`, then the 2-byte `00 00` terminator. -/
theorem C3_wstring_encoding (s : String) :
    PackBOFArguments [⟨"wstring", .str s⟩] =
      .ok (be32 (2 * ((utf16Units s).length + 1)) ++
        (((utf16Units s).map le16).flatten ++ [0, 0])) := by
  rw [packBOF_singleton]
  show packWideStringWithPrefix (.str s) = _
  have h2 : (((utf16Units s).map le16).flatten ++ [0, 0]).length =
      2 * ((utf16Units s).length + 1) := by
    rw [List.length_append, flatten_map_le16_length]
    simp
    omega
  simp only [packWideStringWithPrefix, h2]

/-- C4: a binary argument with a valid hex-string value encodes as a
4-byte big-endian length equal to the decoded byte count followed by the
decoded bytes, and a raw byte-slice value `b` encodes as the length
prefix of `len(b)` followed by `b` unchanged; no terminator either way. -/
theorem C4_binary_encoding :
    (∀ (s : String) (data : List Nat), hexDecode s = some data →
        PackBOFArguments [⟨"binary", .str s⟩] = .ok (be32 data.length ++ data)) ∧
    (∀ b : List Nat, (∀ x ∈ b, x < 256) →
        PackBOFArguments [⟨"binary", .bytes b⟩] = .ok (be32 b.length ++ b)) := by
  constructor
  · intro s data h
    rw [packBOF_singleton]
    show packBinaryWithPrefix (.str s) = _
    simp [packBinaryWithPrefix, h]
  · intro b hb
    rw [packBOF_singleton]
    show packBinaryWithPrefix (.bytes b) = _
    have hrt : hexDecode (hexEncode b) = some b := hexDecodeChars_encode hb
    simp [packBinaryWithPrefix, hrt]

/-- C4 witness: the binary encoding applied to the hex string `"0aff"`
and to the raw byte slice `[222, 173]`. -/
theorem C4_binary_encoding_witness :
    PackBOFArguments [⟨"binary", .str "0aff"⟩] =
      .ok (be32 (List.length [10, 255]) ++ [10, 255]) ∧
    PackBOFArguments [⟨"binary", .bytes [222, 173]⟩] =
      .ok (be32 (List.length [222, 173]) ++ [222, 173]) :=
  ⟨C4_binary_encoding.1 "0aff" [10, 255] rfl,
   C4_binary_encoding.2 [222, 173] (by decide)⟩

/-- C5 counterexample: the decimal-string input `"4294967296"` (= 2^32)
is out of range for the int type, and the code errors instead of
silently wrapping it to `0` as the claim requires. -/
theorem C5_counterexample :
    PackBOFArguments [⟨"int", .str "4294967296"⟩] = .error .parseUintError ∧
    PackBOFArguments [⟨"int", .str "4294967296"⟩] ≠
      .ok (be32 (4294967296 % 2 ^ 32)) := by
  have h0 : PackBOFArguments [⟨"int", .str "4294967296"⟩] =
      .error .parseUintError := rfl
  refine ⟨h0, ?_⟩
  rw [h0]
  intro h
  exact Except.noConfusion h

/-- C5 amended: int- and short-type arguments accept integer, float
(truncated) and decimal-string input; out-of-range integer and float
values wrap silently modulo 2^32 (int) or 2^16 (short), while a decimal
string must parse as an unsigned integer fitting the target width —
otherwise packing errors instead of wrapping. -/
theorem C5_numeric_coercion :
    (∀ n : Int, PackBOFArguments [⟨"int", .int n⟩] = .ok (be32 (n % 2 ^ 32).toNat)) ∧
    (∀ n : Int, PackBOFArguments [⟨"int", .int32 n⟩] = .ok (be32 (n % 2 ^ 32).toNat)) ∧
    (∀ n : Nat, PackBOFArguments [⟨"int", .uint32 n⟩] = .ok (be32 (n % 2 ^ 32))) ∧
    (∀ n : Int, PackBOFArguments [⟨"int", .float64 n⟩] = .ok (be32 (n % 2 ^ 32).toNat)) ∧
    (∀ n : Int, PackBOFArguments [⟨"short", .int n⟩] = .ok (be16 (n % 2 ^ 16).toNat)) ∧
    (∀ n : Int, PackBOFArguments [⟨"short", .int16 n⟩] = .ok (be16 (n % 2 ^ 16).toNat)) ∧
    (∀ n : Nat, PackBOFArguments [⟨"short", .uint16 n⟩] = .ok (be16 (n % 2 ^ 16))) ∧
    (∀ n : Int, PackBOFArguments [⟨"short", .float64 n⟩] = .ok (be16 (n % 2 ^ 16).toNat)) ∧
    (∀ (s : String) (v : Nat), parseUintDec s 32 = some v →
        PackBOFArguments [⟨"int", .str s⟩] = .ok (be32 v)) ∧
    (∀ s : String, parseUintDec s 32 = none →
        PackBOFArguments [⟨"int", .str s⟩] = .error .parseUintError) ∧
    (∀ (s : String) (v : Nat), parseUintDec s 16 = some v →
        PackBOFArguments [⟨"short", .str s⟩] = .ok (be16 v)) ∧
    (∀ s : String, parseUintDec s 16 = none →
        PackBOFArguments [⟨"short", .str s⟩] = .error .parseUintError) := by
  refine ⟨fun n => rfl, fun n => rfl, fun n => rfl, fun n => rfl,
    fun n => rfl, fun n => rfl, fun n => rfl, fun n => rfl, ?_, ?_, ?_, ?_⟩
  · intro s v h
    rw [packBOF_singleton]
    show packInt (.str s) = _
    simp [packInt, h]
  · intro s h
    rw [packBOF_cons_err _ _ _ ?_]
    show packInt (.str s) = _
    simp [packInt, h]
  · intro s v h
    rw [packBOF_singleton]
    show packShort (.str s) = _
    simp [packShort, h]
  · intro s h
    rw [packBOF_cons_err _ _ _ ?_]
    show packShort (.str s) = _
    simp [packShort, h]

/-- C5 witness: the amended coercion rules applied to the in-range
decimal string `"4294967295"` and the out-of-range decimal string
`"65536"`. -/
theorem C5_numeric_coercion_witness :
    PackBOFArguments [⟨"int", .str "4294967295"⟩] = .ok (be32 4294967295) ∧
    PackBOFArguments [⟨"short", .str "65536"⟩] = .error .parseUintError :=
  ⟨C5_numeric_coercion.2.2.2.2.2.2.2.2.1 "4294967295" 4294967295 rfl,
   C5_numeric_coercion.2.2.2.2.2.2.2.2.2.2.2 "65536" rfl⟩

/-- C6: an argument list containing an argument with an unrecognized type
tag never packs, and when every earlier argument is itself packable the
failure is precisely the UnsupportedType error for that tag; the error
result carries no bytes. -/
theorem C6_unsupported_type (pre : List BOFArgument) (arg : BOFArgument)
    (suf : List BOFArgument) (hrec : recognizedTag arg.«Type» = false) :
    (∃ e, PackBOFArguments (pre ++ arg :: suf) = .error e) ∧
    ((∀ a ∈ pre, ∃ d, packOneBOFArgument a = .ok d) →
      PackBOFArguments (pre ++ arg :: suf) = .error (.unsupportedType arg.«Type»)) := by
  have harg := packOne_unrecognized hrec
  constructor
  · cases h : PackBOFArguments (pre ++ arg :: suf) with
    | error e => exact ⟨e, rfl⟩
    | ok buf =>
      obtain ⟨d, hd⟩ := packBOF_ok_mem h arg (by simp)
      rw [harg] at hd
      exact absurd hd (by simp)
  · intro hpre
    obtain ⟨buf, hbuf⟩ := packBOF_all_ok hpre
    exact packBOF_append_error hbuf (packBOF_cons_err _ _ _ harg)

/-- C6 witness: the unsupported tag `"file"` after a packable int
argument aborts the whole call with the UnsupportedType error. -/
theorem C6_unsupported_type_witness :
    PackBOFArguments [⟨"int", .int 7⟩, ⟨"file", .str "x"⟩, ⟨"short", .int 1⟩] =
      .error (.unsupportedType "file") :=
  (C6_unsupported_type [⟨"int", .int 7⟩] ⟨"file", .str "x"⟩ [⟨"short", .int 1⟩] rfl).2
    (by
      intro a ha
      rw [List.mem_singleton] at ha
      subst ha
      exact ⟨_, rfl⟩)

/-- C7: when an argument with a recognized type tag fails to pack because
its value cannot be coerced (a TypeMismatch-kind error, never the
UnsupportedType kind), the whole call returns exactly that error and no
bytes, discarding the buffer built from the packable earlier
arguments. -/
theorem C7_type_mismatch (pre : List BOFArgument) (arg : BOFArgument)
    (suf : List BOFArgument) (e : PackError)
    (hrec : recognizedTag arg.«Type» = true)
    (hpre : ∀ a ∈ pre, ∃ d, packOneBOFArgument a = .ok d)
    (harg : packOneBOFArgument arg = .error e) :
    PackBOFArguments (pre ++ arg :: suf) = .error e ∧ e.isTypeMismatch = true := by
  obtain ⟨buf, hbuf⟩ := packBOF_all_ok hpre
  exact ⟨packBOF_append_error hbuf (packBOF_cons_err _ _ _ harg),
    packOne_recognized_error hrec harg⟩

/-- C7 witness: a string-typed argument holding an int value after a
packable int argument aborts the whole call with the mismatch error. -/
theorem C7_type_mismatch_witness :
    PackBOFArguments [⟨"int", .int 7⟩, ⟨"string", .int 5⟩] =
      .error (.invalidValueType "string" "int") ∧
    (PackError.invalidValueType "string" "int").isTypeMismatch = true :=
  C7_type_mismatch [⟨"int", .int 7⟩] ⟨"string", .int 5⟩ [] _ rfl
    (by
      intro a ha
      rw [List.mem_singleton] at ha
      subst ha
      exact ⟨_, rfl⟩)
    rfl

/-- C8: packing the empty argument list returns an empty buffer and no
error. -/
theorem C8_empty_input : PackBOFArguments [] = .ok [] := rfl

/-- C9: for every value, the single-character tags `i`, `s`, `z`, `Z`,
`b` pack to exactly the same result (bytes or failure) as the long tags
`int`, `short`, `string`, `wstring`, `binary` respectively. -/
theorem C9_tag_aliases (v : GoValue) :
    PackBOFArguments [⟨"i", v⟩] = PackBOFArguments [⟨"int", v⟩] ∧
    PackBOFArguments [⟨"s", v⟩] = PackBOFArguments [⟨"short", v⟩] ∧
    PackBOFArguments [⟨"z", v⟩] = PackBOFArguments [⟨"string", v⟩] ∧
    PackBOFArguments [⟨"Z", v⟩] = PackBOFArguments [⟨"wstring", v⟩] ∧
    PackBOFArguments [⟨"b", v⟩] = PackBOFArguments [⟨"binary", v⟩] :=
  ⟨rfl, rfl, rfl, rfl, rfl⟩

/-- C10: a decimal-string value that does not parse as an unsigned
integer fitting the target width — any non-digit input (hence any
negative decimal string) or any value at or above 2^32 (int) / 2^16
(short) — makes packing error rather than wrap; a string that does parse
yields an in-range value, so no wrapping ever happens on string input. -/
theorem C10_string_range_errors :
    (∀ s : String, parseUintDec s 32 = none →
        PackBOFArguments [⟨"int", .str s⟩] = .error .parseUintError) ∧
    (∀ s : String, parseUintDec s 16 = none →
        PackBOFArguments [⟨"short", .str s⟩] = .error .parseUintError) ∧
    (∀ (s : String) (v : Nat), parseUintDec s 32 = some v → v < 2 ^ 32) ∧
    (∀ (s : String) (v : Nat), parseUintDec s 16 = some v → v < 2 ^ 16) ∧
    (∀ t : String, parseUintDec ("-" ++ t) 32 = none) ∧
    (∀ (l : List Char) (v : Nat), decValueAux 0 l = some v → 2 ^ 32 ≤ v →
        parseUintDec (String.mk l) 32 = none) := by
  refine ⟨?_, ?_, ?_, ?_, ?_, ?_⟩
  · intro s h
    rw [packBOF_cons_err _ _ _ ?_]
    show packInt (.str s) = _
    simp [packInt, h]
  · intro s h
    rw [packBOF_cons_err _ _ _ ?_]
    show packShort (.str s) = _
    simp [packShort, h]
  · intro s v h
    unfold parseUintDec at h
    split at h
    · exact absurd h (by simp)
    · split at h
      · split at h
        · injection h with h
          omega
        · exact absurd h (by simp)
      · exact absurd h (by simp)
  · intro s v h
    unfold parseUintDec at h
    split at h
    · exact absurd h (by simp)
    · split at h
      · split at h
        · injection h with h
          omega
        · exact absurd h (by simp)
      · exact absurd h (by simp)
  · intro t
    have hdata : ("-" ++ t).data = '-' :: t.data := by
      simp [String.data_append]
    unfold parseUintDec
    rw [hdata]
    simp [decValueAux]
  · intro l v h hge
    unfold parseUintDec
    cases l with
    | nil =>
      simp [decValueAux] at h
      omega
    | cons c cs =>
      simp only [String.data, List.isEmpty_cons]
      rw [h]
      have hnl : ¬ v < 2 ^ 32 := by omega
      simp [hnl]
      omega

/-- C10 witness: the negative decimal string `"-1"` for int and the
out-of-range decimal string `"99999"` for short both error. -/
theorem C10_string_range_errors_witness :
    PackBOFArguments [⟨"int", .str "-1"⟩] = .error .parseUintError ∧
    PackBOFArguments [⟨"short", .str "99999"⟩] = .error .parseUintError :=
  ⟨C10_string_range_errors.1 "-1" rfl, C10_string_range_errors.2.1 "99999" rfl⟩

end CSBot
